import Mathlib

/- Shallow embedding of the MIP-003 job lifecycle service in src/app.py:
   the in-memory job store, the start_job, status and provide_input handlers,
   base64 decoding and encoding, MD5 fingerprinting and the canonical
   (sort_keys) JSON serialization used by provide_input.  Machine integers
   are modelled as Nat with explicit reduction modulo 2 to the 32 where the
   MD5 arithmetic overflows.  Identifier generation (uuid), the clock and
   the environment variables are external collaborators and appear as
   explicit arguments of the handlers. -/

set_option maxRecDepth 40000

/-! JSON values.  flask parses request bodies into such values and
json.dumps serializes them.  Numbers are modelled as integers; none of the
embedded code paths produces floats. -/

inductive JsonVal where
  | jnull : JsonVal
  | jbool : Bool → JsonVal
  | jnum : Int → JsonVal
  | jstr : String → JsonVal
  | jarr : List JsonVal → JsonVal
  | jobj : List (String × JsonVal) → JsonVal

/-! Canonical JSON serialization: json.dumps(value, sort_keys=True) with the
default separators and ensure_ascii=True, as called at src/app.py line 344. -/

def hexDigit (n : Nat) : Char :=
  if n < 10 then Char.ofNat (48 + n) else Char.ofNat (87 + n)

def hex4 (n : Nat) : String :=
  String.mk [hexDigit (n / 4096 % 16), hexDigit (n / 256 % 16), hexDigit (n / 16 % 16),
    hexDigit (n % 16)]

/-- Escaping of a single character as done by json.dumps with
ensure_ascii=True: printable ASCII is kept, the two JSON metacharacters and
the common control characters get two-character escapes, everything else
becomes a backslash-u sequence (a surrogate pair beyond the BMP). -/
def jsonEscapeChar (c : Char) : String :=
  if c = '"' then "\\\""
  else if c = '\\' then "\\\\"
  else if c.toNat = 10 then "\\n"
  else if c.toNat = 9 then "\\t"
  else if c.toNat = 13 then "\\r"
  else if c.toNat = 8 then "\\b"
  else if c.toNat = 12 then "\\f"
  else if c.toNat < 32 ∨ c.toNat > 126 then
    if c.toNat < 65536 then "\\u" ++ hex4 c.toNat
    else "\\u" ++ hex4 (55296 + (c.toNat - 65536) / 1024) ++ "\\u" ++
      hex4 (56320 + (c.toNat - 65536) % 1024)
  else String.singleton c

def jsonQuote (s : String) : String :=
  "\"" ++ String.join (s.data.map jsonEscapeChar) ++ "\""

def joinSep (sep : String) : List String → String
  | [] => ""
  | [x] => x
  | x :: xs => x ++ sep ++ joinSep sep xs

/-- Code point comparison of strings as lists of characters: this is the
order Python uses to sort dictionary keys under sort_keys=True. -/
def charListLeb : List Char → List Char → Bool
  | [], _ => true
  | _ :: _, [] => false
  | c :: cs, d :: ds =>
    if c.toNat < d.toNat then true
    else if d.toNat < c.toNat then false
    else charListLeb cs ds

/-- Key order on already serialized object entries: compare the keys. -/
def keyLe (a b : String × String) : Prop := charListLeb a.1.data b.1.data = true

instance : DecidableRel keyLe := fun _ _ => inferInstanceAs (Decidable (_ = true))

mutual
/-- json.dumps(v, sort_keys=True): object entries are serialized and then
emitted in ascending key order, arrays in order, with the default
item separator comma-space and key separator colon-space. -/
def jsonDumps : JsonVal → String
  | .jnull => "null"
  | .jbool true => "true"
  | .jbool false => "false"
  | .jnum i => toString i
  | .jstr s => jsonQuote s
  | .jarr xs => "[" ++ joinSep ", " (jsonDumpsList xs) ++ "]"
  | .jobj fs =>
    "\x7b" ++ joinSep ", " ((List.insertionSort keyLe (jsonDumpsFields fs)).map Prod.snd) ++
      "\x7d"

def jsonDumpsList : List JsonVal → List String
  | [] => []
  | x :: xs => jsonDumps x :: jsonDumpsList xs

def jsonDumpsFields : List (String × JsonVal) → List (String × String)
  | [] => []
  | (k, v) :: fs => (k, jsonQuote k ++ ": " ++ jsonDumps v) :: jsonDumpsFields fs
end

/-! UTF-8 encoding, as performed by str.encode before hashing. -/

def utf8Char (c : Char) : List Nat :=
  let n := c.toNat
  if n < 128 then [n]
  else if n < 2048 then [192 + n / 64, 128 + n % 64]
  else if n < 65536 then [224 + n / 4096, 128 + n / 64 % 64, 128 + n % 64]
  else [240 + n / 262144, 128 + n / 4096 % 64, 128 + n / 64 % 64, 128 + n % 64]

def flatJoin : List (List Nat) → List Nat
  | [] => []
  | x :: xs => x ++ flatJoin xs

def utf8Bytes (s : String) : List Nat := flatJoin (s.data.map utf8Char)

/-! MD5, as used by hashlib.md5(...).hexdigest() at src/app.py lines 222
and 345.  Words are Nat reduced modulo M32. -/

def M32 : Nat := 4294967296

def rotl32 (x s : Nat) : Nat :=
  ((x <<< s) % M32) + (x >>> (32 - s))

def md5K : List Nat :=
  [3614090360, 3905402710, 606105819, 3250441966, 4118548399, 1200080426, 2821735955, 4249261313,
   1770035416, 2336552879, 4294925233, 2304563134, 1804603682, 4254626195, 2792965006, 1236535329,
   4129170786, 3225465664, 643717713, 3921069994, 3593408605, 38016083, 3634488961, 3889429448,
   568446438, 3275163606, 4107603335, 1163531501, 2850285829, 4243563512, 1735328473, 2368359562,
   4294588738, 2272392833, 1839030562, 4259657740, 2763975236, 1272893353, 4139469664, 3200236656,
   681279174, 3936430074, 3572445317, 76029189, 3654602809, 3873151461, 530742520, 3299628645,
   4096336452, 1126891415, 2878612391, 4237533241, 1700485571, 2399980690, 4293915773, 2240044497,
   1873313359, 4264355552, 2734768916, 1309151649, 4149444226, 3174756917, 718787259, 3951481745]

def md5S : List Nat :=
  [7, 12, 17, 22, 7, 12, 17, 22, 7, 12, 17, 22, 7, 12, 17, 22,
   5, 9, 14, 20, 5, 9, 14, 20, 5, 9, 14, 20, 5, 9, 14, 20,
   4, 11, 16, 23, 4, 11, 16, 23, 4, 11, 16, 23, 4, 11, 16, 23,
   6, 10, 15, 21, 6, 10, 15, 21, 6, 10, 15, 21, 6, 10, 15, 21]

def leWord (bytes : List Nat) (i : Nat) : Nat :=
  bytes.getD i 0 + 256 * bytes.getD (i + 1) 0 + 65536 * bytes.getD (i + 2) 0 +
    16777216 * bytes.getD (i + 3) 0

def md5Round (chunk : List Nat) (st : Nat × Nat × Nat × Nat) (i : Nat) : Nat × Nat × Nat × Nat :=
  let (a, b, c, d) := st
  let f :=
    if i < 16 then (b &&& c) ||| ((M32 - 1 - b) &&& d)
    else if i < 32 then (d &&& b) ||| ((M32 - 1 - d) &&& c)
    else if i < 48 then b ^^^ c ^^^ d
    else c ^^^ (b ||| (M32 - 1 - d))
  let g :=
    if i < 16 then i
    else if i < 32 then (5 * i + 1) % 16
    else if i < 48 then (3 * i + 5) % 16
    else (7 * i) % 16
  let tmp := (f + a + md5K.getD i 0 + leWord chunk (4 * g)) % M32
  (d, (b + rotl32 tmp (md5S.getD i 0)) % M32, b, c)

def md5Chunk (st : Nat × Nat × Nat × Nat) (chunk : List Nat) : Nat × Nat × Nat × Nat :=
  let r := (List.range 64).foldl (md5Round chunk) st
  ((st.1 + r.1) % M32, (st.2.1 + r.2.1) % M32, (st.2.2.1 + r.2.2.1) % M32,
    (st.2.2.2 + r.2.2.2) % M32)

def md5Chunks : Nat → Nat × Nat × Nat × Nat → List Nat → Nat × Nat × Nat × Nat
  | _, st, [] => st
  | 0, st, _ => st
  | fuel + 1, st, bytes => md5Chunks fuel (md5Chunk st (bytes.take 64)) (bytes.drop 64)

def leBytes : Nat → Nat → List Nat
  | 0, _ => []
  | n + 1, x => x % 256 :: leBytes n (x / 256)

def md5Pad (msg : List Nat) : List Nat :=
  msg ++ [128] ++ List.replicate ((55 + 64 - msg.length % 64) % 64) 0 ++
    leBytes 8 ((8 * msg.length) % 2 ^ 64)

def md5Bytes (msg : List Nat) : List Nat :=
  let padded := md5Pad msg
  let st := md5Chunks (padded.length / 64) (1732584193, 4023233417, 2562383102, 271733878) padded
  leBytes 4 st.1 ++ leBytes 4 st.2.1 ++ leBytes 4 st.2.2.1 ++ leBytes 4 st.2.2.2

def toHexStr (bytes : List Nat) : String :=
  String.join (bytes.map (fun b => String.mk [hexDigit (b / 16 % 16), hexDigit (b % 16)]))

/-- hashlib.md5(msg).hexdigest() over a byte string. -/
def md5Hex (msg : List Nat) : String := toHexStr (md5Bytes msg)

/-- Fingerprint of a structured payload as computed by provide_input at
src/app.py lines 344-345: canonical serialization, UTF-8 encoding, MD5. -/
def fingerprint (v : JsonVal) : String := md5Hex (utf8Bytes (jsonDumps v))

/-! Base64, as used by base64.b64decode on the submitted file and by
base64.b64encode on the placeholder signature. -/

def b64Val (c : Char) : Option Nat :=
  let n := c.toNat
  if 65 ≤ n ∧ n ≤ 90 then some (n - 65)
  else if 97 ≤ n ∧ n ≤ 122 then some (n - 71)
  else if 48 ≤ n ∧ n ≤ 57 then some (n + 4)
  else if c = '+' then some 62
  else if c = '/' then some 63
  else none

/-- Decode one group of four base64 characters, honoring trailing padding. -/
def b64Group : List Char → Option (List Nat)
  | [c1, c2, c3, c4] => do
    let v1 ← b64Val c1
    let v2 ← b64Val c2
    if c3 = '=' ∧ c4 = '=' then
      some [v1 * 4 + v2 / 16]
    else do
      let v3 ← b64Val c3
      if c4 = '=' then
        some [v1 * 4 + v2 / 16, v2 % 16 * 16 + v3 / 4]
      else do
        let v4 ← b64Val c4
        some [v1 * 4 + v2 / 16, v2 % 16 * 16 + v3 / 4, v3 % 4 * 64 + v4]
  | _ => none

def b64Groups : Nat → List Char → Option (List Nat)
  | _, [] => some []
  | 0, _ => none
  | fuel + 1, cs => do
    let first ← b64Group (cs.take 4)
    let rest ← b64Groups fuel (cs.drop 4)
    some (first ++ rest)

/-- base64.b64decode with the default validate=False: characters outside
the alphabet are discarded, then the remaining length must be a multiple of
four.  The subsequent str.decode round trips the bytes of valid UTF-8, so
the decoded file content is kept as its byte string. -/
def b64decode (s : String) : Option (List Nat) :=
  let cs := s.data.filter (fun c => (b64Val c).isSome || c = '=')
  if cs.length % 4 = 0 then b64Groups cs.length cs else none

def b64Char (n : Nat) : Char :=
  if n < 26 then Char.ofNat (65 + n)
  else if n < 52 then Char.ofNat (97 + n - 26)
  else if n < 62 then Char.ofNat (48 + n - 52)
  else if n = 62 then '+' else '/'

/-- base64.b64encode over a byte string, returned as an ASCII string. -/
def b64encode : List Nat → String
  | [] => ""
  | [b1] => String.mk [b64Char (b1 / 4), b64Char (b1 % 4 * 16), '=', '=']
  | [b1, b2] => String.mk [b64Char (b1 / 4), b64Char (b1 % 4 * 16 + b2 / 16),
      b64Char (b2 % 16 * 4), '=']
  | b1 :: b2 :: b3 :: rest =>
    String.mk [b64Char (b1 / 4), b64Char (b1 % 4 * 16 + b2 / 16),
      b64Char (b2 % 16 * 4 + b3 / 64), b64Char (b3 % 64)] ++ b64encode rest

/-! The job store.  The source keeps a process-wide dict named jobs with
helpers store_job and get_job; it is modelled as an association list in
which the most recent binding of a key shadows older ones, so lookup agrees
with the dict. -/

/-- One record of the in-memory job store: the dict built at src/app.py
lines 201-208.  The html field holds the UTF-8 bytes of the decoded file
content.  The extra_input key is absent until provide_input sets it. -/
structure JobRecord where
  job_id : String
  status : String
  status_id : String
  html : List Nat
  identifier : String
  result : Option JsonVal
  extra_input : Option JsonVal

abbrev Jobs := List (String × JobRecord)

/-- jobs(job_id) = data: insert or overwrite. -/
def store_job (jobs : Jobs) (job_id : String) (data : JobRecord) : Jobs :=
  (job_id, data) :: jobs

/-- jobs.get(job_id). -/
def get_job : Jobs → String → Option JobRecord
  | [], _ => none
  | (k, r) :: rest, job_id => if k = job_id then some r else get_job rest job_id

/-- The static MIP-003 input schema served by get_input_schema_definition
(src/app.py lines 42-74). -/
def get_input_schema_definition : JsonVal :=
  .jobj [("input_data", .jarr [
    .jobj [("id", .jstr "identifier_from_purchaser"), ("type", .jstr "string"),
      ("name", .jstr "Job Identifier"),
      ("data", .jobj [("placeholder", .jstr "Enter job ID (ex: job123, user1-analysis)")]),
      ("validations", .jarr [.jobj [("type", .jstr "required")]])],
    .jobj [("id", .jstr "html_file"), ("type", .jstr "file"),
      ("name", .jstr "Google Pay Activity File (.html)"),
      ("data", .jobj [("accept", .jstr ".html"), ("maxSize", .jnum 5000000),
        ("outputFormat", .jstr "base64")]),
      ("validations", .jarr [.jobj [("type", .jstr "required")]])]])]

/-- Truthiness of an optional string, as tested by Python conditions of the
form if not x: a missing value and the empty string are both falsy. -/
def truthy : Option String → Bool
  | none => false
  | some s => s ≠ ""

/-! The start_job endpoint (src/app.py lines 148-230). -/

/-- Parsed JSON body of POST start_job.  A missing input_data key defaults
to the empty dict (line 171); its entries are base64 strings. -/
structure StartJobRequest where
  identifier_from_purchaser : Option String
  input_data : List (String × String)

structure StartJobSuccess where
  id : String
  job_id : String
  blockchainIdentifier : String
  payByTime : Nat
  submitResultTime : Nat
  unlockTime : Nat
  externalDisputeUnlockTime : Nat
  agentIdentifier : Option String
  sellerVKey : Option String
  identifierFromPurchaser : String
  input_hash : String

inductive StartJobResult where
  | ok : StartJobSuccess → StartJobResult
  | err : Nat → String → StartJobResult

/-- POST /start_job.  The generated identifiers job_id, status_id and
blockchain_id, the clock reading now (epoch seconds) and the two
environment values are arguments; the result is the response together with
the updated store.  The stored record is created with status
awaiting_payment (line 203) and the returned input_hash is the MD5 of the
base64-decoded file content (line 222). -/
def start_job (req : StartJobRequest) (job_id status_id blockchain_id : String)
    (now : Nat) (agent_identifier seller_vkey : Option String) (jobs : Jobs) :
    StartJobResult × Jobs :=
  if ¬ truthy req.identifier_from_purchaser then
    (.err 400 "identifier_from_purchaser required", jobs)
  else
    match req.input_data.lookup "html_file" with
    | none => (.err 400 "html_file required in input_data", jobs)
    | some encoded =>
      match b64decode encoded with
      | none => (.err 400 "Invalid base64 file", jobs)
      | some html_content =>
        let identifier := req.identifier_from_purchaser.getD ""
        (.ok { id := status_id
               job_id := job_id
               blockchainIdentifier := blockchain_id
               payByTime := now + 3600
               submitResultTime := now + 7200
               unlockTime := now + 10800
               externalDisputeUnlockTime := now + 14400
               agentIdentifier := agent_identifier
               sellerVKey := seller_vkey
               identifierFromPurchaser := identifier
               input_hash := md5Hex html_content },
         store_job jobs job_id
           { job_id := job_id
             status := "awaiting_payment"
             status_id := status_id
             html := html_content
             identifier := identifier
             result := none
             extra_input := none })

/-! The status endpoint (src/app.py lines 233-271). -/

structure StatusResponse where
  id : String
  job_id : String
  status : String
  input_schema : Option JsonVal
  result : Option JsonVal

inductive StatusResult where
  | ok : StatusResponse → StatusResult
  | err : Nat → String → StatusResult

/-- GET /status.  uuid is the freshly generated response id and job_id the
query parameter (absent or empty is rejected).  The handler only reads the
store; the returned store is the input store in every branch. -/
def status (jobs : Jobs) (uuid : String) (job_id : Option String) :
    StatusResult × Jobs :=
  match job_id with
  | none => (.err 400 "job_id required", jobs)
  | some jid =>
    if jid = "" then (.err 400 "job_id required", jobs)
    else
      match get_job jobs jid with
      | none => (.err 404 "Job not found", jobs)
      | some job =>
        (.ok { id := uuid
               job_id := jid
               status := job.status
               input_schema :=
                 if job.status = "awaiting_input" then some get_input_schema_definition else none
               result := job.result }, jobs)

/-! The provide_input endpoint (src/app.py lines 274-367). -/

/-- Parsed JSON body of POST provide_input. -/
structure ProvideInputRequest where
  job_id : Option String
  status_id : Option String
  input_data : Option JsonVal
  input_groups : Option JsonVal

inductive ProvideInputResult where
  | ok : String → String → ProvideInputResult
  | err : Nat → String → ProvideInputResult

/-- Success path of provide_input (src/app.py lines 338-360): store the
extra input, advance the status to running, and answer with the canonical
fingerprint of the input and the placeholder signature, a reversible
base64 encoding of the triple job_id, status_id, fingerprint. -/
def apply_input (jobs : Jobs) (jid sid : String) (job : JobRecord) (extra : JsonVal) :
    ProvideInputResult × Jobs :=
  let input_hash := fingerprint extra
  let signature := b64encode (utf8Bytes (jid ++ ":" ++ sid ++ ":" ++ input_hash))
  (.ok input_hash signature,
    store_job jobs jid { job with extra_input := some extra, status := "running" })

/-- POST /provide_input.  The checks appear in source order: required
request fields, job existence, current status, status_id match, and the
mutual exclusion of input_data and input_groups (exactly one must be
present; the source tests both-or-neither and otherwise picks whichever is
present). -/
def provide_input (jobs : Jobs) (req : ProvideInputRequest) :
    ProvideInputResult × Jobs :=
  if ¬ truthy req.job_id ∨ ¬ truthy req.status_id then
    (.err 400 "job_id and status_id are required", jobs)
  else
    match get_job jobs (req.job_id.getD "") with
    | none => (.err 404 "Job not found", jobs)
    | some job =>
      if job.status ≠ "awaiting_input" then
        (.err 400 "Job is not awaiting input", jobs)
      else if job.status_id ≠ "" ∧ job.status_id ≠ req.status_id.getD "" then
        (.err 400 "status_id does not match current job status", jobs)
      else
        match req.input_data, req.input_groups with
        | none, none => (.err 400 "You must provide exactly one of input_data or input_groups", jobs)
        | some _, some _ =>
          (.err 400 "You must provide exactly one of input_data or input_groups", jobs)
        | some v, none => apply_input jobs (req.job_id.getD "") (req.status_id.getD "") job v
        | none, some v => apply_input jobs (req.job_id.getD "") (req.status_id.getD "") job v

/-! Error taxonomy.  The protocol boundary maps every failure to a
structured error response; the spec classifies the concrete messages into
ValidationError, NotFound, Unauthorized and InvalidTransition. -/

inductive ErrorClass where
  | validation : ErrorClass
  | notFound : ErrorClass
  | unauthorized : ErrorClass
  | invalidTransition : ErrorClass
  | internal : ErrorClass
deriving DecidableEq

/-- Modelled from the spec: section 7 assigns each user-visible error
message of src/app.py to one class of the error taxonomy. -/
def classifyMsg (m : String) : ErrorClass :=
  if m = "identifier_from_purchaser required" then .validation
  else if m = "html_file required in input_data" then .validation
  else if m = "Invalid base64 file" then .validation
  else if m = "job_id required" then .validation
  else if m = "job_id and status_id are required" then .validation
  else if m = "You must provide exactly one of input_data or input_groups" then .validation
  else if m = "Job not found" then .notFound
  else if m = "Job is not awaiting input" then .invalidTransition
  else if m = "status_id does not match current job status" then .unauthorized
  else .internal

/-! The public interface as a transition system over the store. -/

/-- One invocation of a public endpoint, carrying the values chosen by the
external collaborators.  The health, availability, input_schema and budget
endpoints never touch the jobs store (src/app.py lines 81-145) and are
collected in the constructors without store effect. -/
inductive Op where
  | start (req : StartJobRequest) (job_id status_id blockchain_id : String)
      (now : Nat) (agent_identifier seller_vkey : Option String) : Op
  | getStatus (uuid : String) (job_id : Option String) : Op
  | provide (req : ProvideInputRequest) : Op
  | availability : Op
  | inputSchema : Op
  | health : Op
  | budget (userId : Option String) : Op

/-- The store after one endpoint invocation. -/
def runOp (op : Op) (jobs : Jobs) : Jobs :=
  match op with
  | .start req jid sid bid now aid vk => (start_job req jid sid bid now aid vk jobs).2
  | .getStatus uuid q => (status jobs uuid q).2
  | .provide req => (provide_input jobs req).2
  | .availability => jobs
  | .inputSchema => jobs
  | .health => jobs
  | .budget _ => jobs

/-- Stores reachable from the empty store through the public interface. -/
inductive Reachable : Jobs → Prop
  | init : Reachable []
  | step (op : Op) (jobs : Jobs) : Reachable jobs → Reachable (runOp op jobs)

/-- One interface step under the environment assumption of section 6 of the
spec: the identifier generator hands start_job a job_id that is not yet in
the store. -/
inductive Step : Jobs → Jobs → Prop
  | start (req : StartJobRequest) (jid sid bid : String) (now : Nat)
      (aid vk : Option String) (jobs : Jobs) (fresh : get_job jobs jid = none) :
      Step jobs (start_job req jid sid bid now aid vk jobs).2
  | getStatus (uuid : String) (q : Option String) (jobs : Jobs) :
      Step jobs (status jobs uuid q).2
  | provide (req : ProvideInputRequest) (jobs : Jobs) :
      Step jobs (provide_input jobs req).2
  | availability (jobs : Jobs) : Step jobs jobs
  | inputSchema (jobs : Jobs) : Step jobs jobs
  | health (jobs : Jobs) : Step jobs jobs
  | budget (userId : Option String) (jobs : Jobs) : Step jobs jobs

/-- Position of a status along the lifecycle ordering awaiting_payment,
awaiting_input, running, completed or failed. -/
def statusRank (s : String) : Nat :=
  if s = "awaiting_payment" then 0
  else if s = "awaiting_input" then 1
  else if s = "running" then 2
  else 3

/-! Helper lemmas about the handlers. -/

theorem truthy_eq_true {o : Option String} : truthy o = true ↔ ∃ s, o = some s ∧ s ≠ "" := by
  cases o with
  | none => simp [truthy]
  | some s => simp [truthy]

theorem get_job_store_job (jobs : Jobs) (jid id : String) (r : JobRecord) :
    get_job (store_job jobs jid r) id = if jid = id then some r else get_job jobs id := rfl

theorem status_snd (jobs : Jobs) (u : String) (q : Option String) :
    (status jobs u q).2 = jobs := by
  unfold status
  cases q with
  | none => rfl
  | some jid =>
    by_cases h : jid = ""
    · simp [h]
    · simp only [if_neg h]
      cases hj : get_job jobs jid <;> simp [hj]

theorem provide_input_not_found (jobs : Jobs) (req : ProvideInputRequest) (jid sid : String)
    (hjid : req.job_id = some jid) (hjne : jid ≠ "")
    (hsid : req.status_id = some sid) (hsne : sid ≠ "")
    (hget : get_job jobs jid = none) :
    provide_input jobs req = (.err 404 "Job not found", jobs) := by
  unfold provide_input
  rw [hjid, hsid]
  simp only [Option.getD_some]
  rw [if_neg (by simp [truthy, hjne, hsne])]
  simp only [hget]

theorem provide_input_not_awaiting (jobs : Jobs) (req : ProvideInputRequest) (jid sid : String)
    (job : JobRecord) (hjid : req.job_id = some jid) (hjne : jid ≠ "")
    (hsid : req.status_id = some sid) (hsne : sid ≠ "")
    (hget : get_job jobs jid = some job) (hst : job.status ≠ "awaiting_input") :
    provide_input jobs req = (.err 400 "Job is not awaiting input", jobs) := by
  unfold provide_input
  rw [hjid, hsid]
  simp only [Option.getD_some]
  rw [if_neg (by simp [truthy, hjne, hsne])]
  simp only [hget]
  rw [if_pos hst]

theorem provide_input_mismatch (jobs : Jobs) (req : ProvideInputRequest) (jid sid : String)
    (job : JobRecord) (hjid : req.job_id = some jid) (hjne : jid ≠ "")
    (hsid : req.status_id = some sid) (hsne : sid ≠ "")
    (hget : get_job jobs jid = some job) (hst : job.status = "awaiting_input")
    (hrec : job.status_id ≠ "") (hmis : job.status_id ≠ sid) :
    provide_input jobs req = (.err 400 "status_id does not match current job status", jobs) := by
  unfold provide_input
  rw [hjid, hsid]
  simp only [Option.getD_some]
  rw [if_neg (by simp [truthy, hjne, hsne])]
  simp only [hget]
  rw [if_neg (by simp [hst])]
  rw [if_pos ⟨hrec, hmis⟩]

theorem provide_input_snd_cases (jobs : Jobs) (req : ProvideInputRequest) :
    (provide_input jobs req).2 = jobs ∨
    ∃ jid job extra, req.job_id = some jid ∧ get_job jobs jid = some job ∧
      job.status = "awaiting_input" ∧
      (provide_input jobs req).2 =
        store_job jobs jid { job with status := "running", extra_input := some extra } := by
  unfold provide_input
  split
  · exact Or.inl rfl
  · rename_i hcond
    simp only [not_or, not_not] at hcond
    obtain ⟨jid, hjid, hjne⟩ := truthy_eq_true.mp hcond.1
    rw [hjid]
    simp only [Option.getD_some]
    cases hj : get_job jobs jid with
    | none => simp [hj]
    | some job =>
      simp only [hj]
      split
      · exact Or.inl rfl
      · rename_i hst
        simp only [not_not] at hst
        split
        · exact Or.inl rfl
        · cases hid : req.input_data with
          | none =>
            cases hig : req.input_groups with
            | none => simp [hid, hig]
            | some w =>
              simp only [hid, hig, apply_input]
              exact Or.inr ⟨jid, job, w, rfl, hj, hst, rfl⟩
          | some v =>
            cases hig : req.input_groups with
            | none =>
              simp only [hid, hig, apply_input]
              exact Or.inr ⟨jid, job, v, rfl, hj, hst, rfl⟩
            | some w => simp [hid, hig]

theorem provide_input_ok_inv (jobs : Jobs) (req : ProvideInputRequest) (h sig : String)
    (jobs' : Jobs) (heq : provide_input jobs req = (.ok h sig, jobs')) :
    ∃ jid sid job extra,
      req.job_id = some jid ∧ jid ≠ "" ∧ req.status_id = some sid ∧ sid ≠ "" ∧
      get_job jobs jid = some job ∧ job.status = "awaiting_input" ∧
      ((req.input_data = some extra ∧ req.input_groups = none) ∨
       (req.input_data = none ∧ req.input_groups = some extra)) ∧
      jobs' = store_job jobs jid { job with status := "running", extra_input := some extra } ∧
      h = fingerprint extra ∧
      sig = b64encode (utf8Bytes (jid ++ ":" ++ sid ++ ":" ++ fingerprint extra)) := by
  unfold provide_input at heq
  split at heq
  · exact ProvideInputResult.noConfusion (congrArg Prod.fst heq)
  · rename_i hcond
    simp only [not_or, not_not] at hcond
    obtain ⟨jid, hjid, hjne⟩ := truthy_eq_true.mp hcond.1
    obtain ⟨sid, hsid, hsne⟩ := truthy_eq_true.mp hcond.2
    rw [hjid, hsid] at heq
    simp only [Option.getD_some] at heq
    cases hj : get_job jobs jid with
    | none =>
      rw [hj] at heq
      exact ProvideInputResult.noConfusion (congrArg Prod.fst heq)
    | some job =>
      rw [hj] at heq
      simp only [] at heq
      split at heq
      · exact ProvideInputResult.noConfusion (congrArg Prod.fst heq)
      · rename_i hst
        simp only [not_not] at hst
        split at heq
        · exact ProvideInputResult.noConfusion (congrArg Prod.fst heq)
        · cases hid : req.input_data with
          | none =>
            cases hig : req.input_groups with
            | none =>
              rw [hid, hig] at heq
              exact ProvideInputResult.noConfusion (congrArg Prod.fst heq)
            | some w =>
              rw [hid, hig] at heq
              simp only [apply_input] at heq
              have h1 := congrArg Prod.fst heq
              have h2 := congrArg Prod.snd heq
              simp only [] at h1 h2
              cases h1
              exact ⟨jid, sid, job, w, hjid, hjne, hsid, hsne, hj, hst,
                Or.inr ⟨rfl, rfl⟩, h2.symm, rfl, rfl⟩
          | some v =>
            cases hig : req.input_groups with
            | none =>
              rw [hid, hig] at heq
              simp only [apply_input] at heq
              have h1 := congrArg Prod.fst heq
              have h2 := congrArg Prod.snd heq
              simp only [] at h1 h2
              cases h1
              exact ⟨jid, sid, job, v, hjid, hjne, hsid, hsne, hj, hst,
                Or.inl ⟨rfl, rfl⟩, h2.symm, rfl, rfl⟩
            | some w =>
              rw [hid, hig] at heq
              exact ProvideInputResult.noConfusion (congrArg Prod.fst heq)

theorem start_job_snd_cases (req : StartJobRequest) (jid sid bid : String) (now : Nat)
    (aid vk : Option String) (jobs : Jobs) :
    (start_job req jid sid bid now aid vk jobs).2 = jobs ∨
    ∃ bytes, (start_job req jid sid bid now aid vk jobs).2 =
      store_job jobs jid
        { job_id := jid, status := "awaiting_payment", status_id := sid,
          html := bytes, identifier := req.identifier_from_purchaser.getD "",
          result := none, extra_input := none } := by
  unfold start_job
  split
  · exact Or.inl rfl
  · cases hl : req.input_data.lookup "html_file" with
    | none => simp [hl]
    | some enc =>
      simp only [hl]
      cases hb : b64decode enc with
      | none => simp [hb]
      | some bytes =>
        simp only [hb]
        exact Or.inr ⟨bytes, rfl⟩

theorem start_job_ok_stored (req : StartJobRequest) (jid sid bid : String) (now : Nat)
    (aid vk : Option String) (jobs : Jobs) (res : StartJobSuccess) (jobs' : Jobs)
    (heq : start_job req jid sid bid now aid vk jobs = (.ok res, jobs')) :
    res.job_id = jid ∧
    ∃ r, get_job jobs' jid = some r ∧ r.status = "awaiting_payment" ∧
      r.status_id = sid ∧ res.input_hash = md5Hex r.html := by
  unfold start_job at heq
  split at heq
  · exact StartJobResult.noConfusion (congrArg Prod.fst heq)
  · cases hl : req.input_data.lookup "html_file" with
    | none =>
      rw [hl] at heq
      exact StartJobResult.noConfusion (congrArg Prod.fst heq)
    | some enc =>
      simp only [hl] at heq
      cases hb : b64decode enc with
      | none =>
        rw [hb] at heq
        exact StartJobResult.noConfusion (congrArg Prod.fst heq)
      | some bytes =>
        simp only [hb] at heq
        injection heq with h1 h2
        injection h1 with h1
        subst h1
        subst h2
        refine ⟨rfl, ?_⟩
        rw [get_job_store_job, if_pos rfl]
        exact ⟨_, rfl, rfl, rfl, rfl⟩

theorem get_job_runOp (op : Op) (jobs : Jobs) (id : String) (r' : JobRecord)
    (h : get_job (runOp op jobs) id = some r') :
    get_job jobs id = some r' ∨ r'.status = "awaiting_payment" ∨
    ∃ r, get_job jobs id = some r ∧ r.status = "awaiting_input" ∧ r'.status = "running" := by
  cases op with
  | start req jid sid bid now aid vk =>
    rcases start_job_snd_cases req jid sid bid now aid vk jobs with hs | ⟨bytes, hs⟩
    · rw [runOp, hs] at h
      exact Or.inl h
    · rw [runOp, hs, get_job_store_job] at h
      by_cases hid : jid = id
      · rw [if_pos hid] at h
        obtain rfl := Option.some.inj h
        exact Or.inr (Or.inl rfl)
      · rw [if_neg hid] at h
        exact Or.inl h
  | getStatus u q =>
    rw [runOp, status_snd] at h
    exact Or.inl h
  | provide req =>
    rcases provide_input_snd_cases jobs req with hs | ⟨jid, job, extra, _, hget, hst, hs⟩
    · rw [runOp, hs] at h
      exact Or.inl h
    · rw [runOp, hs, get_job_store_job] at h
      by_cases hid : jid = id
      · rw [if_pos hid] at h
        obtain rfl := Option.some.inj h
        exact Or.inr (Or.inr ⟨job, hid ▸ hget, hst, rfl⟩)
      · rw [if_neg hid] at h
        exact Or.inl h
  | availability => exact Or.inl h
  | inputSchema => exact Or.inl h
  | health => exact Or.inl h
  | budget userId => exact Or.inl h

theorem step_get_job (s s' : Jobs) (hstep : Step s s') (id : String) (r : JobRecord)
    (hr : get_job s id = some r) :
    ∃ r', get_job s' id = some r' ∧
      (r' = r ∨ (r.status = "awaiting_input" ∧ r'.status = "running")) := by
  cases hstep with
  | start req jid sid bid now aid vk _ fresh =>
    rcases start_job_snd_cases req jid sid bid now aid vk s with hs | ⟨bytes, hs⟩
    · rw [hs]
      exact ⟨r, hr, Or.inl rfl⟩
    · rw [hs, get_job_store_job]
      by_cases hid : jid = id
      · rw [hid] at fresh
        rw [fresh] at hr
        exact Option.noConfusion hr
      · rw [if_neg hid]
        exact ⟨r, hr, Or.inl rfl⟩
  | getStatus u q _ =>
    rw [status_snd]
    exact ⟨r, hr, Or.inl rfl⟩
  | provide req _ =>
    rcases provide_input_snd_cases s req with hs | ⟨jid, job, extra, _, hget, hst, hs⟩
    · rw [hs]
      exact ⟨r, hr, Or.inl rfl⟩
    · rw [hs, get_job_store_job]
      by_cases hid : jid = id
      · rw [if_pos hid]
        rw [hid] at hget
        obtain rfl := Option.some.inj (hget.symm.trans hr)
        exact ⟨_, rfl, Or.inr ⟨hst, rfl⟩⟩
      · rw [if_neg hid]
        exact ⟨r, hr, Or.inl rfl⟩
  | availability _ => exact ⟨r, hr, Or.inl rfl⟩
  | inputSchema _ => exact ⟨r, hr, Or.inl rfl⟩
  | health _ => exact ⟨r, hr, Or.inl rfl⟩
  | budget userId _ => exact ⟨r, hr, Or.inl rfl⟩

/-! Order lemmas for the canonical key ordering used by jsonDumps. -/

theorem charListLeb_total : ∀ (x y : List Char), charListLeb x y = true ∨ charListLeb y x = true := by
  intro x
  induction x with
  | nil => intro y; exact Or.inl rfl
  | cons c cs ih =>
    intro y
    cases y with
    | nil => exact Or.inr rfl
    | cons d ds =>
      rcases Nat.lt_trichotomy c.toNat d.toNat with h | h | h
      · left; simp [charListLeb, h]
      · rcases ih ds with h2 | h2
        · left; simp [charListLeb, h, h2]
        · right; simp [charListLeb, h.symm, h2]
      · right; simp [charListLeb, h]

theorem charListLeb_trans : ∀ (x y z : List Char), charListLeb x y = true →
    charListLeb y z = true → charListLeb x z = true := by
  intro x
  induction x with
  | nil => intro y z _ _; rfl
  | cons c cs ih =>
    intro y z h1 h2
    cases y with
    | nil => simp [charListLeb] at h1
    | cons d ds =>
      cases z with
      | nil => simp [charListLeb] at h2
      | cons e es =>
        rcases Nat.lt_trichotomy c.toNat d.toNat with hcd | hcd | hcd
        · rcases Nat.lt_trichotomy d.toNat e.toNat with hde | hde | hde
          · simp [charListLeb, show c.toNat < e.toNat by omega]
          · simp [charListLeb, show c.toNat < e.toNat by omega]
          · simp only [charListLeb] at h2
            rw [if_neg (by omega), if_pos hde] at h2
            exact Bool.noConfusion h2
        · rcases Nat.lt_trichotomy d.toNat e.toNat with hde | hde | hde
          · simp [charListLeb, show c.toNat < e.toNat by omega]
          · simp only [charListLeb] at h1 h2 ⊢
            rw [if_neg (by omega), if_neg (by omega)] at h1
            rw [if_neg (by omega), if_neg (by omega)] at h2
            rw [if_neg (by omega), if_neg (by omega)]
            exact ih ds es h1 h2
          · simp only [charListLeb] at h2
            rw [if_neg (by omega), if_pos hde] at h2
            exact Bool.noConfusion h2
        · simp only [charListLeb] at h1
          rw [if_neg (by omega), if_pos hcd] at h1
          exact Bool.noConfusion h1

theorem charListLeb_antisymm : ∀ (x y : List Char), charListLeb x y = true →
    charListLeb y x = true → x = y := by
  intro x
  induction x with
  | nil =>
    intro y _ h2
    cases y with
    | nil => rfl
    | cons d ds => simp [charListLeb] at h2
  | cons c cs ih =>
    intro y h1 h2
    cases y with
    | nil => simp [charListLeb] at h1
    | cons d ds =>
      rcases Nat.lt_trichotomy c.toNat d.toNat with hcd | hcd | hcd
      · simp only [charListLeb] at h2
        rw [if_neg (by omega), if_pos hcd] at h2
        exact Bool.noConfusion h2
      · have hc : c = d := by
          have h := congrArg Char.ofNat hcd
          rwa [Char.ofNat_toNat, Char.ofNat_toNat] at h
        subst hc
        simp only [charListLeb] at h1 h2
        rw [if_neg (by omega), if_neg (by omega)] at h1
        rw [if_neg (by omega), if_neg (by omega)] at h2
        rw [ih ds h1 h2]
      · simp only [charListLeb] at h1
        rw [if_neg (by omega), if_pos hcd] at h1
        exact Bool.noConfusion h1

instance : IsTotal (String × String) keyLe :=
  ⟨fun a b => charListLeb_total a.1.data b.1.data⟩

instance : IsTrans (String × String) keyLe :=
  ⟨fun _ _ _ h1 h2 => charListLeb_trans _ _ _ h1 h2⟩

/-- Strict version of keyLe, used to make the sorted order unique when the
keys are distinct. -/
def keyLt (a b : String × String) : Prop := keyLe a b ∧ a.1 ≠ b.1

theorem string_data_inj {x y : String} (h : x.data = y.data) : x = y := by
  cases x
  cases y
  exact congrArg String.mk h

instance : IsAntisymm (String × String) keyLt :=
  ⟨fun _ _ h1 h2 => absurd (string_data_inj (charListLeb_antisymm _ _ h1.1 h2.1)) h1.2⟩

theorem pairwise_and {α : Type _} {R S : α → α → Prop} :
    ∀ {l : List α}, l.Pairwise R → l.Pairwise S → l.Pairwise fun a b => R a b ∧ S a b
  | [], _, _ => List.Pairwise.nil
  | _ :: _, List.Pairwise.cons h1a h1t, List.Pairwise.cons h2a h2t =>
    List.Pairwise.cons (fun b hb => ⟨h1a b hb, h2a b hb⟩) (pairwise_and h1t h2t)

theorem sorted_keyLt {l : List (String × String)} (hs : l.Sorted keyLe)
    (hn : (l.map Prod.fst).Nodup) : l.Sorted keyLt := by
  have hne : l.Pairwise fun a b => a.1 ≠ b.1 := List.pairwise_map.mp hn
  exact pairwise_and hs hne

theorem insertionSort_key_perm_eq (l1 l2 : List (String × String)) (hperm : l1.Perm l2)
    (hnodup : (l1.map Prod.fst).Nodup) :
    List.insertionSort keyLe l1 = List.insertionSort keyLe l2 := by
  have p1 := List.perm_insertionSort keyLe l1
  have p2 := List.perm_insertionSort keyLe l2
  have hp : (List.insertionSort keyLe l1).Perm (List.insertionSort keyLe l2) :=
    p1.trans (hperm.trans p2.symm)
  have s1 := List.sorted_insertionSort keyLe l1
  have s2 := List.sorted_insertionSort keyLe l2
  have n1 : ((List.insertionSort keyLe l1).map Prod.fst).Nodup :=
    ((p1.map Prod.fst).nodup_iff).mpr hnodup
  have n2 : ((List.insertionSort keyLe l2).map Prod.fst).Nodup :=
    ((hp.map Prod.fst).nodup_iff).mp n1
  exact List.eq_of_perm_of_sorted hp (sorted_keyLt s1 n1) (sorted_keyLt s2 n2)

theorem jsonDumpsFields_eq_map : ∀ (fs : List (String × JsonVal)),
    jsonDumpsFields fs = fs.map fun p => (p.1, jsonQuote p.1 ++ ": " ++ jsonDumps p.2)
  | [] => rfl
  | (k, v) :: fs => by
    simp only [jsonDumpsFields, List.map_cons]
    exact congrArg _ (jsonDumpsFields_eq_map fs)

theorem jsonDumps_jobj_perm (l1 l2 : List (String × JsonVal)) (hperm : l1.Perm l2)
    (hnodup : (l1.map Prod.fst).Nodup) :
    jsonDumps (.jobj l1) = jsonDumps (.jobj l2) := by
  have hmap : (jsonDumpsFields l1).Perm (jsonDumpsFields l2) := by
    rw [jsonDumpsFields_eq_map, jsonDumpsFields_eq_map]
    exact hperm.map _
  have hkeys1 : ((jsonDumpsFields l1).map Prod.fst).Nodup := by
    rw [jsonDumpsFields_eq_map, List.map_map]
    have hcomp : (Prod.fst ∘ fun p : String × JsonVal =>
        (p.1, jsonQuote p.1 ++ ": " ++ jsonDumps p.2)) = Prod.fst := funext fun p => rfl
    rw [hcomp]
    exact hnodup
  have hsorteq := insertionSort_key_perm_eq _ _ hmap hkeys1
  simp only [jsonDumps]
  rw [hsorteq]

/-! Claim theorems. -/

/-- Sample record used by concrete witness stores. -/
def sampleJob (st : String) : JobRecord :=
  { job_id := "j1", status := st, status_id := "s1", html := [], identifier := "x",
    result := none, extra_input := none }

/-- C1: every job record reachable through the public interface stays in
status awaiting_payment forever: no operation transitions a job out of it,
every provide_input call on an existing job of a reachable store fails with
the Job is not awaiting input error, and the success branch of
provide_input is unreachable from any reachable store. -/
theorem C1_awaiting_payment_invariant (jobs : Jobs) (hreach : Reachable jobs) :
    (∀ id r, get_job jobs id = some r → r.status = "awaiting_payment") ∧
    (∀ req h sig jobs', provide_input jobs req ≠ (.ok h sig, jobs')) ∧
    (∀ req jid job, req.job_id = some jid → jid ≠ "" → truthy req.status_id = true →
      get_job jobs jid = some job →
      provide_input jobs req = (.err 400 "Job is not awaiting input", jobs)) := by
  have inv : ∀ id r, get_job jobs id = some r → r.status = "awaiting_payment" := by
    induction hreach with
    | init => intro id r h; exact Option.noConfusion h
    | step op s _ ih =>
      intro id r h
      rcases get_job_runOp op s id r h with h1 | h2 | ⟨r0, hr0, hst0, _⟩
      · exact ih id r h1
      · exact h2
      · have hpay := ih id r0 hr0
        rw [hst0] at hpay
        exact absurd hpay (by decide)
  refine ⟨inv, ?_, ?_⟩
  · intro req h sig jobs' heq
    obtain ⟨jid, sid, job, extra, hjid, hjne, hsid, hsne, hget, hst, _⟩ :=
      provide_input_ok_inv jobs req h sig jobs' heq
    have hpay := inv jid job hget
    rw [hst] at hpay
    exact absurd hpay (by decide)
  · intro req jid job hjid hjne hts hget
    obtain ⟨sid, hsid, hsne⟩ := truthy_eq_true.mp hts
    refine provide_input_not_awaiting jobs req jid sid job hjid hjne hsid hsne hget ?_
    have hpay := inv jid job hget
    rw [hpay]
    decide

theorem C1_witness :
    provide_input
      [("job_1", { job_id := "job_1", status := "awaiting_payment", status_id := "sid_1",
                   html := utf8Bytes "hello", identifier := "job1", result := none,
                   extra_input := none })]
      { job_id := some "job_1", status_id := some "sid_1",
        input_data := some (.jstr "x"), input_groups := none }
      = (.err 400 "Job is not awaiting input",
         [("job_1", { job_id := "job_1", status := "awaiting_payment", status_id := "sid_1",
                      html := utf8Bytes "hello", identifier := "job1", result := none,
                      extra_input := none })]) :=
  (C1_awaiting_payment_invariant _
      (Reachable.step
        (Op.start { identifier_from_purchaser := some "job1",
                    input_data := [("html_file", "aGVsbG8=")] } "job_1" "sid_1" "block_1" 0 none
          none)
        [] Reachable.init)).2.2
    { job_id := some "job_1", status_id := some "sid_1",
      input_data := some (.jstr "x"), input_groups := none }
    "job_1"
    { job_id := "job_1", status := "awaiting_payment", status_id := "sid_1",
      html := utf8Bytes "hello", identifier := "job1", result := none, extra_input := none }
    rfl (by decide) rfl rfl

/-- C2 counterexample: after a successful start_job the stored record has
status awaiting_payment, not awaiting_input, refuting the claim that the
source transitions awaiting_payment to awaiting_input at creation. -/
theorem C2_counterexample :
    (start_job { identifier_from_purchaser := some "job1",
                 input_data := [("html_file", "aGVsbG8=")] } "job_1" "sid_1" "block_1" 0 none
        none []).2
      = [("job_1", { job_id := "job_1", status := "awaiting_payment", status_id := "sid_1",
                     html := utf8Bytes "hello", identifier := "job1", result := none,
                     extra_input := none })] ∧
    ("awaiting_payment" : String) ≠ "awaiting_input" :=
  ⟨rfl, by decide⟩

/-- C2 as amended: immediately after a successful start_job the stored
record has status awaiting_payment; creation performs no transition to
awaiting_input. -/
theorem C2_amended_initial_status (req : StartJobRequest) (jid sid bid : String) (now : Nat)
    (aid vk : Option String) (jobs : Jobs) (res : StartJobSuccess) (jobs' : Jobs)
    (heq : start_job req jid sid bid now aid vk jobs = (.ok res, jobs')) :
    res.job_id = jid ∧ ∃ r, get_job jobs' jid = some r ∧ r.status = "awaiting_payment" := by
  obtain ⟨h1, r, hr, hst, _⟩ := start_job_ok_stored req jid sid bid now aid vk jobs res jobs' heq
  exact ⟨h1, r, hr, hst⟩

theorem C2_witness :
    ({ id := "sid_1", job_id := "job_1", blockchainIdentifier := "block_1",
       payByTime := 3600, submitResultTime := 7200, unlockTime := 10800,
       externalDisputeUnlockTime := 14400, agentIdentifier := none, sellerVKey := none,
       identifierFromPurchaser := "job1",
       input_hash := md5Hex (utf8Bytes "hello") } : StartJobSuccess).job_id = "job_1" ∧
    ∃ r, get_job
        [("job_1", { job_id := "job_1", status := "awaiting_payment", status_id := "sid_1",
                     html := utf8Bytes "hello", identifier := "job1", result := none,
                     extra_input := none })] "job_1" = some r ∧
      r.status = "awaiting_payment" :=
  C2_amended_initial_status
    { identifier_from_purchaser := some "job1", input_data := [("html_file", "aGVsbG8=")] }
    "job_1" "sid_1" "block_1" 0 none none [] _ _ rfl

/-- C3: the example submission with purchaser identifier job1 and the
base64 encoding of hello succeeds, stores a fresh job under the generated
job_id, and answers with the MD5 fingerprint of the decoded bytes hello,
which differs from the fingerprint of the encoded string. -/
theorem C3_start_job_example (jid sid bid : String) (now : Nat) (aid vk : Option String) :
    start_job { identifier_from_purchaser := some "job1",
                input_data := [("html_file", "aGVsbG8=")] } jid sid bid now aid vk []
      = (.ok { id := sid, job_id := jid, blockchainIdentifier := bid,
               payByTime := now + 3600, submitResultTime := now + 7200,
               unlockTime := now + 10800, externalDisputeUnlockTime := now + 14400,
               agentIdentifier := aid, sellerVKey := vk,
               identifierFromPurchaser := "job1",
               input_hash := md5Hex (utf8Bytes "hello") },
         [(jid, { job_id := jid, status := "awaiting_payment", status_id := sid,
                  html := utf8Bytes "hello", identifier := "job1",
                  result := none, extra_input := none })]) ∧
    md5Hex (utf8Bytes "hello") ≠ md5Hex (utf8Bytes "aGVsbG8=") ∧
    get_job [] jid = none :=
  ⟨rfl, by decide, rfl⟩

/-- C4: on a job awaiting input addressed with its matching status_id, a
provide_input request that carries both input_data and input_groups, or
neither, fails with the exactly-one ValidationError and leaves the store
untouched. -/
theorem C4_exactly_one_validation (jobs : Jobs) (req : ProvideInputRequest) (jid : String)
    (job : JobRecord) (hjid : req.job_id = some jid) (hjne : jid ≠ "")
    (hsid : req.status_id = some job.status_id) (hsne : job.status_id ≠ "")
    (hget : get_job jobs jid = some job) (hst : job.status = "awaiting_input")
    (hboth : (req.input_data = none ∧ req.input_groups = none) ∨
             (req.input_data ≠ none ∧ req.input_groups ≠ none)) :
    provide_input jobs req =
      (.err 400 "You must provide exactly one of input_data or input_groups", jobs) ∧
    classifyMsg "You must provide exactly one of input_data or input_groups" = .validation := by
  refine ⟨?_, by decide⟩
  unfold provide_input
  rw [hjid, hsid]
  simp only [Option.getD_some]
  rw [if_neg (by simp [truthy, hjne, hsne])]
  simp only [hget]
  rw [if_neg (by simp [hst])]
  rw [if_neg (fun hc => hc.2 rfl)]
  rcases hboth with ⟨h1, h2⟩ | ⟨h1, h2⟩
  · simp only [h1, h2]
  · obtain ⟨v, hv⟩ := Option.ne_none_iff_exists'.mp h1
    obtain ⟨w, hw⟩ := Option.ne_none_iff_exists'.mp h2
    simp only [hv, hw]

theorem C4_witness :
    provide_input [("j1", sampleJob "awaiting_input")]
      { job_id := some "j1", status_id := some "s1", input_data := none, input_groups := none }
      = (.err 400 "You must provide exactly one of input_data or input_groups",
         [("j1", sampleJob "awaiting_input")]) ∧
    classifyMsg "You must provide exactly one of input_data or input_groups" = .validation :=
  C4_exactly_one_validation [("j1", sampleJob "awaiting_input")]
    { job_id := some "j1", status_id := some "s1", input_data := none, input_groups := none }
    "j1" (sampleJob "awaiting_input") rfl (by decide) rfl (by decide) rfl rfl
    (Or.inl ⟨rfl, rfl⟩)

/-- C5: once a provide_input call with a given job_id and status_id
succeeds, the job is in status running, and repeating the same call fails
with the InvalidTransition error Job is not awaiting input while leaving
the store unchanged, so extra_input is never applied twice. -/
theorem C5_second_call_invalid_transition (jobs : Jobs) (req : ProvideInputRequest)
    (h sig : String) (jobs' : Jobs)
    (heq : provide_input jobs req = (.ok h sig, jobs')) :
    provide_input jobs' req = (.err 400 "Job is not awaiting input", jobs') ∧
    classifyMsg "Job is not awaiting input" = .invalidTransition ∧
    ∃ jid job', req.job_id = some jid ∧ get_job jobs' jid = some job' ∧
      job'.status = "running" := by
  obtain ⟨jid, sid, job, extra, hjid, hjne, hsid, hsne, hget, hst, hshape, hstore, hh, hsig⟩ :=
    provide_input_ok_inv jobs req h sig jobs' heq
  have hget' : get_job jobs' jid =
      some { job with status := "running", extra_input := some extra } := by
    rw [hstore, get_job_store_job, if_pos rfl]
  refine ⟨?_, by decide, jid, _, hjid, hget', rfl⟩
  exact provide_input_not_awaiting jobs' req jid sid _ hjid hjne hsid hsne hget'
    (show ("running" : String) ≠ "awaiting_input" by decide)

theorem C5_witness :
    (provide_input (store_job [("j1", sampleJob "awaiting_input")] "j1"
        { sampleJob "awaiting_input" with
          status := "running", extra_input := some (.jstr "x") })
      { job_id := some "j1", status_id := some "s1",
        input_data := some (.jstr "x"), input_groups := none }
      = (.err 400 "Job is not awaiting input",
         store_job [("j1", sampleJob "awaiting_input")] "j1"
           { sampleJob "awaiting_input" with
             status := "running", extra_input := some (.jstr "x") })) ∧
    classifyMsg "Job is not awaiting input" = .invalidTransition ∧
    ∃ jid job',
      ({ job_id := some "j1", status_id := some "s1",
         input_data := some (.jstr "x"), input_groups := none } :
          ProvideInputRequest).job_id = some jid ∧
      get_job (store_job [("j1", sampleJob "awaiting_input")] "j1"
        { sampleJob "awaiting_input" with
          status := "running", extra_input := some (.jstr "x") }) jid = some job' ∧
      job'.status = "running" :=
  C5_second_call_invalid_transition [("j1", sampleJob "awaiting_input")]
    { job_id := some "j1", status_id := some "s1",
      input_data := some (.jstr "x"), input_groups := none }
    (fingerprint (.jstr "x"))
    (b64encode (utf8Bytes ("j1" ++ ":" ++ "s1" ++ ":" ++ fingerprint (.jstr "x"))))
    (store_job [("j1", sampleJob "awaiting_input")] "j1"
      { sampleJob "awaiting_input" with
        status := "running", extra_input := some (.jstr "x") })
    rfl

/-- C6: for a provide_input request with well formed identifiers, an
unknown job fails with NotFound; a known job not awaiting input fails with
InvalidTransition even when the status_id also mismatches; a job awaiting
input whose recorded status_id differs from the supplied one fails with the
Unauthorized error, and every such failure leaves the store unchanged. -/
theorem C6_error_precedence (jobs : Jobs) (req : ProvideInputRequest) (jid sid : String)
    (hjid : req.job_id = some jid) (hjne : jid ≠ "")
    (hsid : req.status_id = some sid) (hsne : sid ≠ "") :
    (get_job jobs jid = none →
      provide_input jobs req = (.err 404 "Job not found", jobs) ∧
      classifyMsg "Job not found" = .notFound) ∧
    (∀ job, get_job jobs jid = some job → job.status ≠ "awaiting_input" →
      provide_input jobs req = (.err 400 "Job is not awaiting input", jobs) ∧
      classifyMsg "Job is not awaiting input" = .invalidTransition) ∧
    (∀ job, get_job jobs jid = some job → job.status = "awaiting_input" →
      job.status_id ≠ "" → job.status_id ≠ sid →
      provide_input jobs req = (.err 400 "status_id does not match current job status", jobs) ∧
      classifyMsg "status_id does not match current job status" = .unauthorized) := by
  refine ⟨?_, ?_, ?_⟩
  · intro hget
    exact ⟨provide_input_not_found jobs req jid sid hjid hjne hsid hsne hget, by decide⟩
  · intro job hget hst
    exact ⟨provide_input_not_awaiting jobs req jid sid job hjid hjne hsid hsne hget hst,
      by decide⟩
  · intro job hget hst hrec hmis
    exact ⟨provide_input_mismatch jobs req jid sid job hjid hjne hsid hsne hget hst hrec hmis,
      by decide⟩

theorem C6_witness :
    (provide_input []
        { job_id := some "j1", status_id := some "s1", input_data := none, input_groups := none }
        = (.err 404 "Job not found", []) ∧
      classifyMsg "Job not found" = .notFound) ∧
    (provide_input [("j1", sampleJob "running")]
        { job_id := some "j1", status_id := some "s1", input_data := none, input_groups := none }
        = (.err 400 "Job is not awaiting input", [("j1", sampleJob "running")]) ∧
      classifyMsg "Job is not awaiting input" = .invalidTransition) ∧
    (provide_input [("j1", sampleJob "awaiting_input")]
        { job_id := some "j1", status_id := some "s2", input_data := none, input_groups := none }
        = (.err 400 "status_id does not match current job status",
           [("j1", sampleJob "awaiting_input")]) ∧
      classifyMsg "status_id does not match current job status" = .unauthorized) :=
  ⟨(C6_error_precedence []
      { job_id := some "j1", status_id := some "s1", input_data := none, input_groups := none }
      "j1" "s1" rfl (by decide) rfl (by decide)).1 rfl,
   (C6_error_precedence [("j1", sampleJob "running")]
      { job_id := some "j1", status_id := some "s1", input_data := none, input_groups := none }
      "j1" "s1" rfl (by decide) rfl (by decide)).2.1 (sampleJob "running") rfl (by decide),
   (C6_error_precedence [("j1", sampleJob "awaiting_input")]
      { job_id := some "j1", status_id := some "s2", input_data := none, input_groups := none }
      "j1" "s2" rfl (by decide) rfl (by decide)).2.2 (sampleJob "awaiting_input") rfl rfl
      (by decide) (by decide)⟩

/-- C7: the provide_input fingerprint over structured payloads is a
function of the payload, and on objects it is independent of the order of
the key-value pairs: permuting the fields of an object with distinct keys
does not change the fingerprint. -/
theorem C7_fingerprint_canonical (l1 l2 : List (String × JsonVal)) (hperm : l1.Perm l2)
    (hnodup : (l1.map Prod.fst).Nodup) :
    (∀ v : JsonVal, fingerprint v = fingerprint v) ∧
    fingerprint (.jobj l1) = fingerprint (.jobj l2) := by
  refine ⟨fun _ => rfl, ?_⟩
  unfold fingerprint
  rw [jsonDumps_jobj_perm l1 l2 hperm hnodup]

theorem C7_witness :
    fingerprint (.jobj [("a", .jnum 1), ("b", .jnum 2)]) =
      fingerprint (.jobj [("b", .jnum 2), ("a", .jnum 1)]) :=
  (C7_fingerprint_canonical [("a", JsonVal.jnum 1), ("b", JsonVal.jnum 2)]
    [("b", JsonVal.jnum 2), ("a", JsonVal.jnum 1)]
    (List.Perm.swap ("b", JsonVal.jnum 2) ("a", JsonVal.jnum 1) []) (by decide)).2

/-- C8: the status endpoint never mutates the store; an unknown job_id
fails with NotFound; a known job yields a read-only projection carrying the
job_id, the current status, the result exactly as stored, and the Schema
Registry descriptor exactly when the status is awaiting_input. -/
theorem C8_status_projection (jobs : Jobs) (u : String) (jid : String) (hne : jid ≠ "") :
    (∀ q, (status jobs u q).2 = jobs) ∧
    (get_job jobs jid = none →
      status jobs u (some jid) = (.err 404 "Job not found", jobs) ∧
      classifyMsg "Job not found" = .notFound) ∧
    (∀ job, get_job jobs jid = some job →
      ∃ resp, status jobs u (some jid) = (.ok resp, jobs) ∧
        resp.id = u ∧ resp.job_id = jid ∧ resp.status = job.status ∧
        resp.result = job.result ∧
        (resp.input_schema = some get_input_schema_definition ↔
          job.status = "awaiting_input") ∧
        (resp.input_schema ≠ none ↔ job.status = "awaiting_input")) := by
  refine ⟨status_snd jobs u, ?_, ?_⟩
  · intro hget
    constructor
    · simp only [status]
      rw [if_neg hne]
      simp only [hget]
    · decide
  · intro job hget
    refine ⟨{ id := u, job_id := jid, status := job.status,
              input_schema := if job.status = "awaiting_input"
                then some get_input_schema_definition else none,
              result := job.result }, ?_, rfl, rfl, rfl, rfl, ?_, ?_⟩
    · simp only [status]
      rw [if_neg hne]
      simp only [hget]
    · by_cases hst : job.status = "awaiting_input" <;> simp [hst]
    · by_cases hst : job.status = "awaiting_input" <;> simp [hst]

theorem C8_witness :
    (status [] "u1" (some "jx") = (.err 404 "Job not found", []) ∧
      classifyMsg "Job not found" = .notFound) ∧
    ∃ resp, status [("j1", sampleJob "awaiting_input")] "u1" (some "j1")
        = (.ok resp, [("j1", sampleJob "awaiting_input")]) ∧
      resp.id = "u1" ∧ resp.job_id = "j1" ∧ resp.status = (sampleJob "awaiting_input").status ∧
      resp.result = (sampleJob "awaiting_input").result ∧
      (resp.input_schema = some get_input_schema_definition ↔
        (sampleJob "awaiting_input").status = "awaiting_input") ∧
      (resp.input_schema ≠ none ↔ (sampleJob "awaiting_input").status = "awaiting_input") :=
  ⟨(C8_status_projection [] "u1" "jx" (by decide)).2.1 rfl,
   (C8_status_projection [("j1", sampleJob "awaiting_input")] "u1" "j1" (by decide)).2.2
     (sampleJob "awaiting_input") rfl⟩

theorem steps_get_job (s s' : Jobs) (hsteps : Relation.ReflTransGen Step s s') (id : String) :
    ∀ r, get_job s id = some r →
    ∃ r', get_job s' id = some r' ∧ statusRank r.status ≤ statusRank r'.status ∧
      ((r.status = "completed" ∨ r.status = "failed") → r'.status = r.status) := by
  induction hsteps with
  | refl => intro r hr; exact ⟨r, hr, le_refl _, fun _ => rfl⟩
  | tail hab hbc ih =>
    intro r hr
    obtain ⟨r1, hr1, hrank, hterm⟩ := ih r hr
    obtain ⟨r2, hr2, hcase⟩ := step_get_job _ _ hbc id r1 hr1
    refine ⟨r2, hr2, ?_, ?_⟩
    · rcases hcase with rfl | ⟨h1, h2⟩
      · exact hrank
      · refine le_trans hrank ?_
        rw [h1, h2]
        decide
    · intro hterm0
      have e1 := hterm hterm0
      rcases hcase with rfl | ⟨h1, h2⟩
      · exact e1
      · rw [e1] at h1
        rcases hterm0 with hx | hx <;> rw [hx] at h1 <;> exact absurd h1 (by decide)

/-- C9: along any sequence of interface steps in which the identifier
generator hands start_job fresh job ids, the status of a stored job only
moves forward along the ordering awaiting_payment, awaiting_input, running,
completed or failed, and a job observed in completed or failed keeps that
status. -/
theorem C9_status_monotonic (s s' : Jobs) (hsteps : Relation.ReflTransGen Step s s')
    (id : String) (r r' : JobRecord) (hr : get_job s id = some r)
    (hr' : get_job s' id = some r') :
    statusRank r.status ≤ statusRank r'.status ∧
    ((r.status = "completed" ∨ r.status = "failed") → r'.status = r.status) := by
  obtain ⟨r2, hr2, h1, h2⟩ := steps_get_job s s' hsteps id r hr
  obtain rfl : r2 = r' := Option.some.inj (hr2.symm.trans hr')
  exact ⟨h1, h2⟩

theorem C9_witness :
    statusRank (sampleJob "awaiting_input").status ≤
      statusRank ({ sampleJob "awaiting_input" with
        status := "running", extra_input := some (.jstr "x") } : JobRecord).status ∧
    (((sampleJob "awaiting_input").status = "completed" ∨
      (sampleJob "awaiting_input").status = "failed") →
      ({ sampleJob "awaiting_input" with
        status := "running", extra_input := some (.jstr "x") } : JobRecord).status =
        (sampleJob "awaiting_input").status) :=
  C9_status_monotonic [("j1", sampleJob "awaiting_input")]
    (store_job [("j1", sampleJob "awaiting_input")] "j1"
      { sampleJob "awaiting_input" with
        status := "running", extra_input := some (.jstr "x") })
    (Relation.ReflTransGen.single
      (Step.provide
        { job_id := some "j1", status_id := some "s1",
          input_data := some (.jstr "x"), input_groups := none }
        [("j1", sampleJob "awaiting_input")]))
    "j1" (sampleJob "awaiting_input")
    { sampleJob "awaiting_input" with
      status := "running", extra_input := some (.jstr "x") }
    rfl rfl

/-- C10 counterexample: the interface has no complete or fail entry point:
no endpoint invocation moves the sample running job to completed or to
failed, so the transitions the claim requires do not exist in the code. -/
theorem C10_counterexample :
    ¬ ∃ op : Op,
      (get_job (runOp op [("j1", sampleJob "running")]) "j1").map JobRecord.status
          = some "completed" ∨
      (get_job (runOp op [("j1", sampleJob "running")]) "j1").map JobRecord.status
          = some "failed" := by
  rintro ⟨op, hop⟩
  have key : ∀ r', get_job (runOp op [("j1", sampleJob "running")]) "j1" = some r' →
      r'.status = "running" ∨ r'.status = "awaiting_payment" := by
    intro r' h
    rcases get_job_runOp op [("j1", sampleJob "running")] "j1" r' h with h1 | h2 | ⟨r, hr, hst, _⟩
    · left
      have e : sampleJob "running" = r' := Option.some.inj h1
      rw [← e]
      rfl
    · right
      exact h2
    · exfalso
      have e : sampleJob "running" = r := Option.some.inj hr
      rw [← e] at hst
      exact absurd hst (by decide)
  rcases hop with hc | hc <;>
  · cases hg : get_job (runOp op [("j1", sampleJob "running")]) "j1" with
    | none =>
      rw [hg] at hc
      exact Option.noConfusion hc
    | some r' =>
      rw [hg] at hc
      have hcs := Option.some.inj hc
      rcases key r' hg with hx | hx <;> rw [hcs] at hx <;> exact absurd hx (by decide)

/-- C10 as amended: the code exposes no complete or fail entry point; no
interface operation ever brings a job into status completed or failed, so a
record observed with one of these statuses after an operation already had
exactly that status before it. -/
theorem C10_no_complete_fail_transition (op : Op) (jobs : Jobs) (id : String) (r' : JobRecord)
    (h : get_job (runOp op jobs) id = some r')
    (hterm : r'.status = "completed" ∨ r'.status = "failed") :
    ∃ r, get_job jobs id = some r ∧ r.status = r'.status := by
  rcases get_job_runOp op jobs id r' h with h1 | h2 | ⟨r, hr, hst, hrun⟩
  · exact ⟨r', h1, rfl⟩
  · rcases hterm with hx | hx <;> rw [hx] at h2 <;> exact absurd h2 (by decide)
  · rcases hterm with hx | hx <;> rw [hx] at hrun <;> exact absurd hrun (by decide)

theorem C10_witness :
    ∃ r, get_job [("j1", sampleJob "completed")] "j1" = some r ∧
      r.status = (sampleJob "completed").status :=
  C10_no_complete_fail_transition Op.health [("j1", sampleJob "completed")] "j1"
    (sampleJob "completed") rfl (Or.inl rfl)
